import Mathlib

/-!
# AMD service (answering-machine detection) — verification development

Shallow embedding of the decision engine of `app/amd_detector.py`,
`app/config.py` and the session-registry / streaming-controller logic of
`app/main.py`.

Modelling conventions:
* Python floats are modelled as rationals (`ℚ`); every literal the code
  uses (0.7, 0.75, 0.85, 0.95, 0.1, 0.5, 2.5, 3.5) and every comparison the
  code performs give the same booleans over `ℚ` as over IEEE doubles.
* Python string operations are modelled structurally over character lists:
  `str.lower` by an ASCII per-character lowering (all inputs relevant to
  the classifier rules are already lower case), `str.strip()` by dropping
  whitespace at both ends, `str.split()` by splitting on whitespace and
  discarding empty pieces, and the substring test `p in t` by an explicit
  occurrence check `strContains t p`.
* The Vosk recognizer is the external SpeechSource: its per-frame answer
  (a finalized utterance, or an in-progress one) together with the frame's
  byte length is the input of `process_audio`, and the text drained by
  `FinalResult()` is a parameter of `force_decision`.  Diagnostic `reason`
  strings (f-strings with float formatting) are not modelled; no rule of
  the code reads them.
-/

namespace AMD

/-- The classification outcome: `"HUMAN"`, `"MACHINE"` or `"UNKNOWN"`. -/
inductive Outcome where
  | HUMAN
  | MACHINE
  | UNKNOWN
deriving DecidableEq, Repr

/-- `config.AMD_DECISION_TIMEOUT_SECONDS = 3.5`. -/
def AMD_DECISION_TIMEOUT_SECONDS : ℚ := 7/2

/-- `config.AMD_MIN_SPEECH_FOR_MACHINE = 2.5`. -/
def AMD_MIN_SPEECH_FOR_MACHINE : ℚ := 5/2

/-- `config.VOICEMAIL_KEYWORDS`, verbatim. -/
def VOICEMAIL_KEYWORDS : List String :=
  [ "mensaje", "buzón", "buzon", "tono", "ocupado", "disponible",
    "después del", "despues del", "deje su", "deja tu", "no se encuentra",
    "fuera de servicio", "no está disponible", "no esta disponible",
    "vuelva a llamar", "intentelo más tarde", "intentelo mas tarde",
    "número que usted marcó", "numero que usted marco",
    "en este momento", "por favor", "gracias por llamar",
    "horario de atención", "horario de atencion",
    "marque la extensión", "marque la extension",
    "bienvenido", "ha comunicado con", "ha llamado a",
    "voicemail", "leave a message", "after the tone", "beep",
    "not available", "please call back" ]

/-- The `human_greetings` list of `analyze_transcription` (REGLA 3), verbatim. -/
def human_greetings : List String :=
  [ "alo", "aló", "hola", "si", "sí", "diga", "digame", "dígame",
    "bueno", "quien", "quién", "mande" ]

/-- `leadsWith p t`: the character list `p` is an initial segment of `t`. -/
def leadsWith : List Char → List Char → Bool
  | [], _ => true
  | _ :: _, [] => false
  | p :: ps, c :: cs => p == c && leadsWith ps cs

/-- `occursIn p t`: the character list `p` occurs contiguously inside `t`. -/
def occursIn : List Char → List Char → Bool
  | ps, [] => ps.isEmpty
  | ps, c :: cs => leadsWith ps (c :: cs) || occursIn ps cs

/-- Python's substring test `p in t`. -/
def strContains (t p : String) : Bool := occursIn p.data t.data

/-- Python's `str.lower()` (ASCII lowering; see module comment). -/
def pyLower (s : String) : String := String.mk (s.data.map Char.toLower)

/-- Python's `str.strip()`: drop whitespace at both ends. -/
def pyStrip (s : String) : String :=
  String.mk (((s.data.dropWhile Char.isWhitespace).reverse.dropWhile
      Char.isWhitespace).reverse)

/-- Accumulator-based splitting of a character list into whitespace-separated
words (the accumulator holds the current word reversed). -/
def splitWords : List Char → List Char → List String
  | cur, [] => if cur.isEmpty then [] else [String.mk cur.reverse]
  | cur, c :: cs =>
      if c.isWhitespace then
        if cur.isEmpty then splitWords [] cs
        else String.mk cur.reverse :: splitWords [] cs
      else splitWords (c :: cur) cs

/-- Python's `str.split()`: whitespace-separated words, no empty pieces. -/
def pySplit (s : String) : List String := splitWords [] s.data

/-- The normalization `text.lower().strip()` at the top of
`analyze_transcription`. -/
def normText (text : String) : String := pyStrip (pyLower text)

/-- The dictionary returned by `AMDDetector.analyze_transcription`: `result`,
`confidence`, `transcription` keys, plus the `keywords` key which is present
only on the keyword rule (modelled as a list that is empty otherwise). -/
structure Analysis where
  result : Outcome
  confidence : ℚ
  transcription : String
  keywords : List String
deriving DecidableEq, Repr

/-- The `keywords_found` list of `analyze_transcription`: the voicemail
keywords occurring in the (already normalized) text, in list order. -/
def keywordsFound (tl : String) : List String :=
  VOICEMAIL_KEYWORDS.filter (fun k => strContains tl k)

/-- `AMDDetector.analyze_transcription(text, speech_duration)`.

The code's rule ladder, in order: empty text ⇒ UNKNOWN 0.0; REGLA 1
(voicemail keyword occurs as a substring) ⇒ MACHINE
`min(0.95, 0.7 + 0.1·count)`; REGLA 2 (duration > 2.5 and more than 8
words) ⇒ MACHINE 0.75; REGLA 3 (at most 3 words and a greeting occurs as a
substring) ⇒ HUMAN 0.85; REGLA 4 (at most 4 words, no keyword) ⇒ HUMAN
0.70; default UNKNOWN 0.5.  The code's nested `if`s of REGLA 2 and REGLA 3
are flattened into conjunctions, which falls through identically; the
code's local variables `text_lower`, `keywords_found`, `words` are pure and
are inlined as `normText text`, `keywordsFound _`, `pySplit _`. -/
def analyze_transcription (text : String) (speech_duration : ℚ) : Analysis :=
  if normText text = "" then
    { result := .UNKNOWN, confidence := 0, transcription := "", keywords := [] }
  else if 1 ≤ (keywordsFound (normText text)).length then
    { result := .MACHINE,
      confidence := min (19/20)
        (7/10 + ((keywordsFound (normText text)).length : ℚ) * (1/10)),
      transcription := normText text,
      keywords := keywordsFound (normText text) }
  else if AMD_MIN_SPEECH_FOR_MACHINE < speech_duration ∧
      8 < (pySplit (normText text)).length then
    { result := .MACHINE, confidence := 3/4, transcription := normText text,
      keywords := [] }
  else if (pySplit (normText text)).length ≤ 3 ∧
      human_greetings.any (fun g => strContains (normText text) g) then
    { result := .HUMAN, confidence := 17/20, transcription := normText text,
      keywords := [] }
  else if (pySplit (normText text)).length ≤ 4 ∧
      (keywordsFound (normText text)).length = 0 then
    { result := .HUMAN, confidence := 7/10, transcription := normText text,
      keywords := [] }
  else
    { result := .UNKNOWN, confidence := 1/2, transcription := normText text,
      keywords := [] }

/-- The decision dictionary a session emits: `{"call_id": ..., **analysis}`
plus the optional `"partial": True` / `"forced": True` tags (modelled as
booleans that are `false` when the key is absent). -/
structure DecisionResult where
  call_id : String
  result : Outcome
  confidence : ℚ
  transcription : String
  keywords : List String
  partFlag : Bool
  forced : Bool
deriving DecidableEq, Repr

/-- Assembling the emitted dictionary from an analysis and the tags. -/
def mkResult (cid : String) (a : Analysis) (partFlag forced : Bool) : DecisionResult :=
  { call_id := cid, result := a.result, confidence := a.confidence,
    transcription := a.transcription, keywords := a.keywords,
    partFlag := partFlag, forced := forced }

/-- The mutable state of `AMDSession` (the recognizer itself is external). -/
structure Session where
  call_id : String
  sample_rate : ℕ
  accumulated_text : String
  total_speech_duration : ℚ
  decision_made : Bool
  final_result : Option DecisionResult
deriving DecidableEq, Repr

/-- `AMDSession.__init__(detector, call_id, sample_rate)`. -/
def initSession (cid : String) (rate : ℕ) : Session :=
  { call_id := cid, sample_rate := rate, accumulated_text := "",
    total_speech_duration := 0, decision_made := false, final_result := none }

/-- What the recognizer reports for one audio frame: `AcceptWaveform` true
with the finalized `Result()` text, or false with the `PartialResult()`
text.  `nbytes` is `len(audio_data)`. -/
inductive FrameResult where
  | finalText (text : String) (nbytes : ℕ)
  | inProgress (text : String) (nbytes : ℕ)
deriving DecidableEq, Repr

/-- The transcript accumulation `self.accumulated_text += " " + text`. -/
def appendText (acc text : String) : String := acc ++ " " ++ text

/-- The duration update
`self.total_speech_duration += len(audio_data) / (self.sample_rate * 2)`. -/
def bumpDuration (dur : ℚ) (nbytes rate : ℕ) : ℚ :=
  dur + (nbytes : ℚ) / ((rate : ℚ) * 2)

/-- `AMDSession.process_audio(audio_data)`: returns the updated session and
the decision, `none` when more audio is needed. -/
def process_audio (s : Session) (fr : FrameResult) : Session × Option DecisionResult :=
  if s.decision_made then (s, s.final_result)
  else
    match fr with
    | .finalText text nbytes =>
        if text = "" then (s, none)
        else if 7/10 ≤ (analyze_transcription
            (pyStrip (appendText s.accumulated_text text))
            (bumpDuration s.total_speech_duration nbytes s.sample_rate)).confidence then
          ({ s with accumulated_text := appendText s.accumulated_text text,
                    total_speech_duration :=
                      bumpDuration s.total_speech_duration nbytes s.sample_rate,
                    decision_made := true,
                    final_result := some (mkResult s.call_id
                      (analyze_transcription
                        (pyStrip (appendText s.accumulated_text text))
                        (bumpDuration s.total_speech_duration nbytes s.sample_rate))
                      false false) },
           some (mkResult s.call_id
             (analyze_transcription (pyStrip (appendText s.accumulated_text text))
               (bumpDuration s.total_speech_duration nbytes s.sample_rate))
             false false))
        else
          ({ s with accumulated_text := appendText s.accumulated_text text,
                    total_speech_duration :=
                      bumpDuration s.total_speech_duration nbytes s.sample_rate },
           none)
    | .inProgress text _ =>
        if text = "" then (s, none)
        else if (analyze_transcription text 0).result = .MACHINE ∧
            17/20 ≤ (analyze_transcription text 0).confidence then
          ({ s with decision_made := true,
                    final_result :=
                      some (mkResult s.call_id (analyze_transcription text 0) true false) },
           some (mkResult s.call_id (analyze_transcription text 0) true false))
        else (s, none)

/-- The transcript after `force_decision` flushes the recognizer: the
drained `FinalResult()` text is appended when non-empty. -/
def flushedText (acc flushText : String) : String :=
  if flushText = "" then acc else appendText acc flushText

/-- `AMDSession.force_decision()`; `flushText` is the text drained from the
recognizer's `FinalResult()`. -/
def force_decision (s : Session) (flushText : String) : Session × Option DecisionResult :=
  if s.decision_made then (s, s.final_result)
  else
    ({ s with accumulated_text := flushedText s.accumulated_text flushText,
              decision_made := true,
              final_result := some (mkResult s.call_id
                (analyze_transcription
                  (pyStrip (flushedText s.accumulated_text flushText))
                  s.total_speech_duration)
                false true) },
     some (mkResult s.call_id
       (analyze_transcription (pyStrip (flushedText s.accumulated_text flushText))
         s.total_speech_duration)
       false true))

/-- The session-creation step of both websocket handlers in `main.py`
(`session = AMDSession(...); active_sessions[call_id] = session`): a fresh
session is created and the registry entry for `call_id` is assigned,
overwriting any previous entry.  No duplicate check is performed. -/
def createSession (reg : String → Option Session) (cid : String) (rate : ℕ) :
    (String → Option Session) × Session :=
  (Function.update reg cid (some (initSession cid rate)), initSession cid rate)

/-- One call into a session: a processed frame, or the forced decision. -/
inductive SessionOp where
  | frame (fr : FrameResult)
  | force (flushText : String)
deriving DecidableEq, Repr

/-- The session state after one operation. -/
def applyOp (s : Session) : SessionOp → Session
  | .frame fr => (process_audio s fr).1
  | .force ft => (force_decision s ft).1

/-- The session state after a sequence of operations. -/
def applyOps (s : Session) (ops : List SessionOp) : Session := ops.foldl applyOp s

/-- What one iteration of the websocket loop observes after the deadline
check: a received frame (with the recognizer's answer), or
`asyncio.TimeoutError` from the 0.5 s poll. -/
inductive PollOutcome where
  | recv (fr : FrameResult)
  | timedOut
deriving DecidableEq, Repr

/-- The `while True` loop of `websocket_amd` / `websocket_stream`: each
iteration checks the measured elapsed time against the deadline (forcing a
decision and stopping when it is exceeded), otherwise polls; a received
frame is processed and a produced decision is emitted and stops the loop.
The trace lists, per iteration, the measured elapsed time and the poll
outcome; an exhausted trace is a client disconnect (no decision emitted).
The returned list is every DecisionResult sent to the client. -/
def stepSession (s : Session) : PollOutcome → Session × Option DecisionResult
  | .timedOut => (s, none)
  | .recv fr => process_audio s fr

/-- One loop iteration given the poll outcome: a timed-out poll
(`asyncio.TimeoutError`) leaves the session untouched and produces nothing;
a received frame is handed to `process_audio`. -/
def controllerLoop (deadline : ℚ) (flushText : String) :
    Session → List (ℚ × PollOutcome) → List DecisionResult
  | _, [] => []
  | s, e :: rest =>
      if deadline < e.1 then (force_decision s flushText).2.toList
      else if (stepSession s e.2).2.isSome then (stepSession s e.2).2.toList
      else controllerLoop deadline flushText (stepSession s e.2).1 rest

/-! ### Properties of the classifier -/

theorem analyze_empty_case (text : String) (d : ℚ) (h : normText text = "") :
    analyze_transcription text d =
      { result := .UNKNOWN, confidence := 0, transcription := "", keywords := [] } := by
  simp only [analyze_transcription, if_pos h]

theorem analyze_keyword_case (text : String) (d : ℚ)
    (h1 : normText text ≠ "") (h2 : 1 ≤ (keywordsFound (normText text)).length) :
    analyze_transcription text d =
      { result := .MACHINE,
        confidence := min (19/20)
          (7/10 + ((keywordsFound (normText text)).length : ℚ) * (1/10)),
        transcription := normText text,
        keywords := keywordsFound (normText text) } := by
  simp only [analyze_transcription, if_neg h1, if_pos h2]

theorem analyze_conf_bounds (text : String) (d : ℚ) :
    0 ≤ (analyze_transcription text d).confidence ∧
      (analyze_transcription text d).confidence ≤ 1 := by
  have hk : (0:ℚ) ≤ ((keywordsFound (normText text)).length : ℚ) * (1/10) := by
    positivity
  simp only [analyze_transcription]
  split_ifs
  · exact ⟨le_refl 0, by norm_num⟩
  · exact ⟨le_min (by norm_num) (by linarith), min_le_of_left_le (by norm_num)⟩
  · exact ⟨by norm_num, by norm_num⟩
  · exact ⟨by norm_num, by norm_num⟩
  · exact ⟨by norm_num, by norm_num⟩
  · exact ⟨by norm_num, by norm_num⟩

theorem analyze_highconf (text : String) (d : ℚ)
    (h : (analyze_transcription text d).result = .HUMAN ∨
         (analyze_transcription text d).result = .MACHINE) :
    7/10 ≤ (analyze_transcription text d).confidence := by
  have hk : (0:ℚ) ≤ ((keywordsFound (normText text)).length : ℚ) * (1/10) := by
    positivity
  simp only [analyze_transcription] at h ⊢
  split_ifs at h ⊢
  · simp_all
  · exact le_min (by norm_num) (by linarith)
  · norm_num
  · norm_num
  · norm_num
  · simp_all

theorem analyze_unknown_low (text : String) (d : ℚ)
    (h : (analyze_transcription text d).result = .UNKNOWN) :
    (analyze_transcription text d).confidence < 7/10 := by
  simp only [analyze_transcription] at h ⊢
  split_ifs at h ⊢ <;> norm_num

/-! ### Properties of the session operations -/

theorem process_audio_decided (s : Session) (fr : FrameResult)
    (h : s.decision_made = true) : process_audio s fr = (s, s.final_result) := by
  simp [process_audio, h]

theorem force_decision_decided (s : Session) (ft : String)
    (h : s.decision_made = true) : force_decision s ft = (s, s.final_result) := by
  simp [force_decision, h]

theorem force_decision_undecided (s : Session) (ft : String)
    (h : s.decision_made = false) :
    force_decision s ft =
      ({ s with accumulated_text := flushedText s.accumulated_text ft,
                decision_made := true,
                final_result := some (mkResult s.call_id
                  (analyze_transcription (pyStrip (flushedText s.accumulated_text ft))
                    s.total_speech_duration) false true) },
       some (mkResult s.call_id
         (analyze_transcription (pyStrip (flushedText s.accumulated_text ft))
           s.total_speech_duration) false true)) := by
  simp [force_decision, h]

theorem process_audio_some (s : Session) (fr : FrameResult) (s' : Session)
    (r : DecisionResult) (h : s.decision_made = false)
    (hp : process_audio s fr = (s', some r)) :
    r.forced = false ∧ r.result ≠ .UNKNOWN ∧ 7/10 ≤ r.confidence ∧
      s'.decision_made = true ∧ s'.final_result = some r := by
  cases fr with
  | finalText text nbytes =>
      simp only [process_audio, h, Bool.false_eq_true, if_false] at hp
      split_ifs at hp with h1 h2
      · simp at hp
      · rw [Prod.mk.injEq] at hp
        obtain ⟨hs, hr⟩ := hp
        rw [Option.some.injEq] at hr
        subst hs; subst hr
        refine ⟨rfl, ?_, h2, rfl, rfl⟩
        intro hu
        have := analyze_unknown_low _ _ hu
        simp only [mkResult] at h2 hu
        linarith
      · simp at hp
  | inProgress text nbytes =>
      simp only [process_audio, h, Bool.false_eq_true, if_false] at hp
      split_ifs at hp with h1 h2
      · simp at hp
      · rw [Prod.mk.injEq] at hp
        obtain ⟨hs, hr⟩ := hp
        rw [Option.some.injEq] at hr
        subst hs; subst hr
        refine ⟨rfl, ?_, ?_, rfl, rfl⟩
        · simp [mkResult, h2.1]
        · simp only [mkResult]
          linarith [h2.2]
      · simp at hp

theorem process_audio_none (s : Session) (fr : FrameResult) (s' : Session)
    (h : s.decision_made = false) (hp : process_audio s fr = (s', none)) :
    s'.decision_made = false ∧ s'.final_result = s.final_result := by
  cases fr with
  | finalText text nbytes =>
      simp only [process_audio, h, Bool.false_eq_true, if_false] at hp
      split_ifs at hp with h1 h2
      · cases hp; exact ⟨h, rfl⟩
      · simp at hp
      · cases hp; exact ⟨rfl, rfl⟩
  | inProgress text nbytes =>
      simp only [process_audio, h, Bool.false_eq_true, if_false] at hp
      split_ifs at hp with h1 h2
      · cases hp; exact ⟨h, rfl⟩
      · simp at hp
      · cases hp; exact ⟨h, rfl⟩

theorem process_audio_duration_mono (s : Session) (fr : FrameResult) :
    s.total_speech_duration ≤ (process_audio s fr).1.total_speech_duration := by
  by_cases h : s.decision_made = true
  · rw [process_audio_decided s fr h]
  · rw [Bool.not_eq_true] at h
    cases fr with
    | finalText text nbytes =>
        have hd : s.total_speech_duration ≤
            bumpDuration s.total_speech_duration nbytes s.sample_rate := by
          unfold bumpDuration
          have : (0:ℚ) ≤ (nbytes : ℚ) / ((s.sample_rate : ℚ) * 2) := by positivity
          linarith
        simp only [process_audio, h, Bool.false_eq_true, if_false]
        split_ifs <;> simp <;> exact hd
    | inProgress text nbytes =>
        simp only [process_audio, h, Bool.false_eq_true, if_false]
        split_ifs <;> simp

theorem applyOp_duration_mono (s : Session) (op : SessionOp) :
    s.total_speech_duration ≤ (applyOp s op).total_speech_duration := by
  cases op with
  | frame fr => exact process_audio_duration_mono s fr
  | force ft =>
      by_cases h : s.decision_made = true
      · rw [applyOp, force_decision_decided s ft h]
      · rw [Bool.not_eq_true] at h
        rw [applyOp, force_decision_undecided s ft h]

theorem applyOp_decision_mono (s : Session) (op : SessionOp)
    (h : s.decision_made = true) : (applyOp s op).decision_made = true := by
  cases op with
  | frame fr => rw [applyOp, process_audio_decided s fr h]; exact h
  | force ft => rw [applyOp, force_decision_decided s ft h]; exact h

theorem applyOps_duration_mono (ops : List SessionOp) (s : Session) :
    s.total_speech_duration ≤ (applyOps s ops).total_speech_duration := by
  induction ops generalizing s with
  | nil => exact le_refl _
  | cons op rest ih =>
      calc s.total_speech_duration
          ≤ (applyOp s op).total_speech_duration := applyOp_duration_mono s op
        _ ≤ (applyOps (applyOp s op) rest).total_speech_duration := ih _

theorem applyOps_decision_mono (ops : List SessionOp) (s : Session)
    (h : s.decision_made = true) : (applyOps s ops).decision_made = true := by
  induction ops generalizing s with
  | nil => exact h
  | cons op rest ih => exact ih _ (applyOp_decision_mono s op h)

theorem stepSession_none (s : Session) (po : PollOutcome)
    (h : s.decision_made = false) (hn : (stepSession s po).2 = none) :
    (stepSession s po).1.decision_made = false := by
  cases po with
  | timedOut => exact h
  | recv fr =>
      rcases he : process_audio s fr with ⟨s', r?⟩
      have h2 : stepSession s (PollOutcome.recv fr) = (s', r?) := by
        rw [show stepSession s (PollOutcome.recv fr) = process_audio s fr from rfl, he]
      rw [h2] at hn ⊢
      cases r? with
      | some r => exact absurd hn (by simp)
      | none => exact (process_audio_none s fr s' h he).1

theorem controllerLoop_one (deadline : ℚ) (ft : String)
    (trace : List (ℚ × PollOutcome)) (s : Session)
    (h : s.decision_made = false)
    (hdl : ∃ e ∈ trace, deadline < e.1) :
    (controllerLoop deadline ft s trace).length = 1 := by
  induction trace generalizing s with
  | nil => simp at hdl
  | cons e rest ih =>
      by_cases he : deadline < e.1
      · rw [controllerLoop, if_pos he, force_decision_undecided s ft h]
        rfl
      · rw [controllerLoop, if_neg he]
        have hdl' : ∃ x ∈ rest, deadline < x.1 := by
          rcases hdl with ⟨e', he', hgt⟩
          rcases List.mem_cons.mp he' with rfl | hmem
          · exact absurd hgt he
          · exact ⟨e', hmem, hgt⟩
        by_cases hs : (stepSession s e.2).2.isSome
        · rw [if_pos hs]
          rcases Option.isSome_iff_exists.mp hs with ⟨r, hr⟩
          rw [hr]
          rfl
        · rw [if_neg hs]
          have hn : (stepSession s e.2).2 = none :=
            Option.not_isSome_iff_eq_none.mp hs
          exact ih _ (stepSession_none s e.2 h hn) hdl'


theorem ne_empty_of_strContains (t p : String) (h : strContains t p = true)
    (hp : p ≠ "") : t ≠ "" := by
  intro ht
  subst ht
  rw [strContains] at h
  have hd : ("" : String).data = [] := rfl
  rw [hd] at h
  have hpe : p.data.isEmpty = true := by simpa [occursIn] using h
  apply hp
  cases p with
  | mk l =>
      cases l with
      | nil => rfl
      | cons c cs => simp at hpe

theorem voicemail_keywords_ne_empty : ∀ k ∈ VOICEMAIL_KEYWORDS, k ≠ "" := by decide

theorem human_greetings_ne_empty : ∀ g ∈ human_greetings, g ≠ "" := by decide

theorem voicemail_keywords_nodup : VOICEMAIL_KEYWORDS.Nodup := by decide

theorem analyze_greeting_case (text : String) (d : ℚ)
    (h1 : normText text ≠ "")
    (h2 : (keywordsFound (normText text)).length = 0)
    (h3 : (pySplit (normText text)).length ≤ 3)
    (h4 : human_greetings.any (fun g => strContains (normText text) g) = true) :
    analyze_transcription text d =
      { result := .HUMAN, confidence := 17/20, transcription := normText text,
        keywords := [] } := by
  simp only [analyze_transcription, if_neg h1]
  rw [if_neg (by omega : ¬ 1 ≤ (keywordsFound (normText text)).length)]
  rw [if_neg (fun hc => by omega : ¬ (AMD_MIN_SPEECH_FOR_MACHINE < d ∧
      8 < (pySplit (normText text)).length))]
  rw [if_pos ⟨h3, h4⟩]

/-! ### Concrete evaluations -/

theorem analyze_eval_buzon :
    analyze_transcription "buzon" 0 =
      { result := .MACHINE, confidence := 4/5, transcription := "buzon",
        keywords := ["buzon"] } := by
  rw [analyze_keyword_case "buzon" 0 (by decide) (by decide)]
  rw [show keywordsFound (normText "buzon") = ["buzon"] from by decide,
      show normText "buzon" = "buzon" from by decide]
  norm_num

theorem analyze_eval_hola :
    analyze_transcription "hola" (1/2) =
      { result := .HUMAN, confidence := 17/20, transcription := "hola",
        keywords := [] } := by
  rw [analyze_greeting_case "hola" (1/2) (by decide) (by decide) (by decide) (by decide)]
  rw [show normText "hola" = "hola" from by decide]

theorem analyze_eval_asi :
    analyze_transcription "asi" 0 =
      { result := .HUMAN, confidence := 17/20, transcription := "asi",
        keywords := [] } := by
  rw [analyze_greeting_case "asi" 0 (by decide) (by decide) (by decide) (by decide)]
  rw [show normText "asi" = "asi" from by decide]

theorem analyze_eval_pfdsm :
    analyze_transcription "por favor deje su mensaje" 0 =
      { result := .MACHINE, confidence := 19/20,
        transcription := "por favor deje su mensaje",
        keywords := ["mensaje", "deje su", "por favor"] } := by
  rw [analyze_keyword_case "por favor deje su mensaje" 0 (by decide) (by decide)]
  rw [show keywordsFound (normText "por favor deje su mensaje") =
        ["mensaje", "deje su", "por favor"] from by decide,
      show normText "por favor deje su mensaje" = "por favor deje su mensaje"
        from by decide]
  norm_num

theorem process_eval_fast :
    process_audio (initSession "c" 8000)
        (.inProgress "por favor deje su mensaje" 160) =
      ({ initSession "c" 8000 with
           decision_made := true,
           final_result := some (mkResult "c"
             (analyze_transcription "por favor deje su mensaje" 0) true false) },
       some (mkResult "c" (analyze_transcription "por favor deje su mensaje" 0)
         true false)) := by
  simp only [process_audio, initSession, Bool.false_eq_true, if_false]
  rw [if_neg (by decide : ¬ ("por favor deje su mensaje" = ""))]
  rw [if_pos ⟨by rw [analyze_eval_pfdsm], by rw [analyze_eval_pfdsm]; norm_num⟩]

/-! ### The claims -/

/-- A registered session for call id `"a"` that has already accumulated
speech, distinguishing it from a freshly created session. -/
def staleSession : Session :=
  { call_id := "a", sample_rate := 8000, accumulated_text := " hola",
    total_speech_duration := 1, decision_made := false, final_result := none }

/-- A registry in which call id `"a"` is already active. -/
def dupRegistry : String → Option Session :=
  fun c => if c = "a" then some staleSession else none

/-- C1 (counterexample): creating a session for call id `"a"`, which already
has an active session in the registry, is not rejected — a fresh session is
created and the registry entry for `"a"` is overwritten, so the existing
registry entry is not left unchanged. -/
theorem claim_C1_counterexample :
    (createSession dupRegistry "a" 8000).2 = initSession "a" 8000 ∧
    (createSession dupRegistry "a" 8000).1 "a" = some (initSession "a" 8000) ∧
    (createSession dupRegistry "a" 8000).1 "a" ≠ some staleSession := by
  have hupd : (createSession dupRegistry "a" 8000).1 "a" =
      some (initSession "a" 8000) := by
    rw [createSession]
    exact Function.update_same "a" (some (initSession "a" 8000)) dupRegistry
  refine ⟨rfl, hupd, ?_⟩
  rw [hupd]
  intro hcon
  rw [Option.some.injEq] at hcon
  have hacc := congrArg Session.accumulated_text hcon
  simp [initSession, staleSession] at hacc

/-- C1 (amended): `createSession` never rejects a duplicate `call_id`: for
every registry, call id and sample rate it returns a fresh session and
overwrites the registry entry for that call id with the fresh session,
leaving entries for all other call ids unchanged (the previously registered
session object itself is not mutated, it merely loses its registry slot). -/
theorem claim_C1_amended (reg : String → Option Session) (cid : String) (rate : ℕ) :
    (createSession reg cid rate).2 = initSession cid rate ∧
    (createSession reg cid rate).1 cid = some (initSession cid rate) ∧
    (∀ c, c ≠ cid → (createSession reg cid rate).1 c = reg c) := by
  refine ⟨rfl, ?_, ?_⟩
  · rw [createSession]
    exact Function.update_same cid (some (initSession cid rate)) reg
  · intro c hc
    rw [createSession]
    exact Function.update_noteq hc _ _

/-- C1 (witness for the amended claim) at the concrete duplicate registry. -/
theorem claim_C1_amended_witness :
    (createSession dupRegistry "a" 8000).1 "b" = dupRegistry "b" ∧
    (createSession dupRegistry "a" 8000).2 = initSession "a" 8000 :=
  ⟨(claim_C1_amended dupRegistry "a" 8000).2.2 "b" (by decide),
   (claim_C1_amended dupRegistry "a" 8000).1⟩

/-- C2: for every input the classifier confidence lies in [0, 1]; every
HUMAN or MACHINE classifier result carries confidence ≥ 0.70; and every
decision emitted by the non-forced frame path (`process_audio`) is a HUMAN
or MACHINE result with confidence ≥ 0.70. -/
theorem claim_C2 (text : String) (d : ℚ) :
    (0 ≤ (analyze_transcription text d).confidence ∧
      (analyze_transcription text d).confidence ≤ 1) ∧
    (((analyze_transcription text d).result = .HUMAN ∨
        (analyze_transcription text d).result = .MACHINE) →
      7/10 ≤ (analyze_transcription text d).confidence) ∧
    (∀ (s : Session) (fr : FrameResult) (s' : Session) (r : DecisionResult),
      s.decision_made = false → process_audio s fr = (s', some r) →
      (r.result = .HUMAN ∨ r.result = .MACHINE) ∧ 7/10 ≤ r.confidence) := by
  refine ⟨analyze_conf_bounds text d, analyze_highconf text d, ?_⟩
  intro s fr s' r h hp
  have hr := process_audio_some s fr s' r h hp
  refine ⟨?_, hr.2.2.1⟩
  cases hq : r.result with
  | HUMAN => exact Or.inl rfl
  | MACHINE => exact Or.inr rfl
  | UNKNOWN => exact absurd hq hr.2.1

/-- C2 (witness): confidence bounds at `("hola", 0.5)`, the high-confidence
bound through the HUMAN result there, and the ≥ 0.70 bound for a decision
emitted by the non-forced partial fast-exit path. -/
theorem claim_C2_witness :
    (0 ≤ (analyze_transcription "hola" (1/2)).confidence ∧
      (analyze_transcription "hola" (1/2)).confidence ≤ 1) ∧
    7/10 ≤ (analyze_transcription "hola" (1/2)).confidence ∧
    7/10 ≤ (mkResult "c" (analyze_transcription "por favor deje su mensaje" 0)
      true false).confidence := by
  refine ⟨(claim_C2 "hola" (1/2)).1, ?_, ?_⟩
  · exact (claim_C2 "hola" (1/2)).2.1 (Or.inl (by rw [analyze_eval_hola]))
  · exact ((claim_C2 "x" 0).2.2 (initSession "c" 8000)
      (.inProgress "por favor deje su mensaje" 160) _ _ rfl process_eval_fast).2

/-- C3: whenever at least one voicemail keyword occurs as a substring of
the normalized text, the classifier returns MACHINE, with confidence
`min(0.95, 0.70 + 0.10 × matchCount)` for `matchCount` the number of
matched keywords, and with `keywords` the matched set (a duplicate-free
sublist of the keyword list). -/
theorem claim_C3 (text : String) (d : ℚ)
    (h : ∃ k ∈ VOICEMAIL_KEYWORDS, strContains (normText text) k = true) :
    (analyze_transcription text d).result = .MACHINE ∧
    (analyze_transcription text d).confidence =
      min (19/20)
        (7/10 + ((analyze_transcription text d).keywords.length : ℚ) * (1/10)) ∧
    (analyze_transcription text d).keywords = keywordsFound (normText text) ∧
    (analyze_transcription text d).keywords ≠ [] ∧
    (analyze_transcription text d).keywords.Nodup := by
  rcases h with ⟨k, hk, hc⟩
  have hne : normText text ≠ "" :=
    ne_empty_of_strContains _ k hc (voicemail_keywords_ne_empty k hk)
  have hmem : k ∈ keywordsFound (normText text) := List.mem_filter.mpr ⟨hk, hc⟩
  have hlen : 1 ≤ (keywordsFound (normText text)).length := by
    have := List.length_pos.mpr (List.ne_nil_of_mem hmem)
    omega
  rw [analyze_keyword_case text d hne hlen]
  exact ⟨rfl, rfl, rfl, List.ne_nil_of_mem hmem,
    List.Nodup.filter _ voicemail_keywords_nodup⟩

/-- C3 (witness): `classify("buzon", 0)` is MACHINE — not HUMAN — with the
keyword-rule confidence and a non-empty matched set. -/
theorem claim_C3_witness :
    (analyze_transcription "buzon" 0).result = .MACHINE ∧
    (analyze_transcription "buzon" 0).confidence =
      min (19/20)
        (7/10 + ((analyze_transcription "buzon" 0).keywords.length : ℚ) * (1/10)) ∧
    (analyze_transcription "buzon" 0).keywords ≠ [] := by
  have h := claim_C3 "buzon" 0 ⟨"buzon", by decide, by decide⟩
  exact ⟨h.1, h.2.1, h.2.2.2.1⟩

/-- C4 (counterexample): `classify("asi", 0)` returns HUMAN with confidence
0.85 through the greeting rule although no whole word of `"asi"` equals a
member of the greeting vocabulary — the rule fires on substring containment
(`"si"` occurs inside `"asi"`), so whole-word equality is not required. -/
theorem claim_C4_counterexample :
    (analyze_transcription "asi" 0).result = .HUMAN ∧
    (analyze_transcription "asi" 0).confidence = 17/20 ∧
    pySplit (normText "asi") = ["asi"] ∧
    (pySplit (normText "asi")).filter (fun w => human_greetings.contains w) = [] := by
  refine ⟨by rw [analyze_eval_asi], by rw [analyze_eval_asi], by decide, by decide⟩

/-- C4 (amended): the human-greeting rule fires on substring containment:
for every text with no matching voicemail keyword whose normalization has 3
words or fewer and contains some member of the greeting vocabulary as a
substring (whole-word equality being a special case), the classifier
returns HUMAN with confidence 0.85. -/
theorem claim_C4_amended (text : String) (d : ℚ)
    (h1 : ∀ k ∈ VOICEMAIL_KEYWORDS, strContains (normText text) k = false)
    (h2 : (pySplit (normText text)).length ≤ 3)
    (h3 : ∃ g ∈ human_greetings, strContains (normText text) g = true) :
    (analyze_transcription text d).result = .HUMAN ∧
    (analyze_transcription text d).confidence = 17/20 := by
  rcases h3 with ⟨g, hg, hgc⟩
  have hne : normText text ≠ "" :=
    ne_empty_of_strContains _ g hgc (human_greetings_ne_empty g hg)
  have hkf : keywordsFound (normText text) = [] := by
    rw [keywordsFound, List.filter_eq_nil_iff]
    intro k hk
    simp [h1 k hk]
  have hlen0 : (keywordsFound (normText text)).length = 0 := by rw [hkf]; rfl
  have hany : human_greetings.any (fun g => strContains (normText text) g) = true :=
    List.any_eq_true.mpr ⟨g, hg, hgc⟩
  rw [analyze_greeting_case text d hne hlen0 h2 hany]
  exact ⟨rfl, rfl⟩

/-- C4 (witness for the amended claim): `classify("hola", 0.5)` is HUMAN
with confidence 0.85. -/
theorem claim_C4_amended_witness :
    (analyze_transcription "hola" (1/2)).result = .HUMAN ∧
    (analyze_transcription "hola" (1/2)).confidence = 17/20 :=
  claim_C4_amended "hola" (1/2) (by decide) (by decide)
    ⟨"hola", by decide, by decide⟩

/-- C5: on an undecided session, `force_decision` appends the flushed
trailing text, classifies the full accumulated transcript with no
confidence condition, transitions to DECIDED unconditionally and returns
the result tagged `forced`; and the non-forced frame path never emits an
UNKNOWN (or forced-tagged) decision, so the forced path is the only source
of terminal UNKNOWN decisions. -/
theorem claim_C5 (s : Session) (ft : String) (fr : FrameResult)
    (h : s.decision_made = false) :
    ((force_decision s ft).2 = some (mkResult s.call_id
        (analyze_transcription (pyStrip (flushedText s.accumulated_text ft))
          s.total_speech_duration) false true) ∧
      (force_decision s ft).1.decision_made = true ∧
      (force_decision s ft).1.accumulated_text = flushedText s.accumulated_text ft) ∧
    (∀ s' r, process_audio s fr = (s', some r) →
      r.result ≠ .UNKNOWN ∧ r.forced = false) := by
  constructor
  · rw [force_decision_undecided s ft h]
    exact ⟨rfl, rfl, rfl⟩
  · intro s' r hp
    have hr := process_audio_some s fr s' r h hp
    exact ⟨hr.2.1, hr.1⟩

/-- C5 (witness): forcing a fresh, silent session decides it and returns a
`forced` result classifying the empty transcript. -/
theorem claim_C5_witness :
    (force_decision (initSession "c" 8000) "").2 =
      some (mkResult "c"
        (analyze_transcription (pyStrip (flushedText "" "")) 0) false true) ∧
    (force_decision (initSession "c" 8000) "").1.decision_made = true := by
  have h := claim_C5 (initSession "c" 8000) "" (.inProgress "x" 0) rfl
  exact ⟨h.1.1, h.1.2.1⟩

/-- C6: a session that is not disconnected mid-stream (its iteration trace
reaches a measured elapsed time beyond the configured deadline) emits
exactly one DecisionResult through the streaming-controller loop, for every
sequence of polled frames including total silence. -/
theorem claim_C6 (ft : String) (s : Session) (trace : List (ℚ × PollOutcome))
    (h : s.decision_made = false)
    (hdl : ∃ e ∈ trace, AMD_DECISION_TIMEOUT_SECONDS < e.1) :
    (controllerLoop AMD_DECISION_TIMEOUT_SECONDS ft s trace).length = 1 :=
  controllerLoop_one AMD_DECISION_TIMEOUT_SECONDS ft trace s h hdl

/-- C6 (witness): a fresh session whose trace is total silence (one
timed-out poll past the 3.5 s deadline) emits exactly one result. -/
theorem claim_C6_witness :
    (controllerLoop AMD_DECISION_TIMEOUT_SECONDS "" (initSession "c" 8000)
      [(4, PollOutcome.timedOut)]).length = 1 :=
  claim_C6 "" (initSession "c" 8000) [(4, PollOutcome.timedOut)] rfl
    ⟨(4, PollOutcome.timedOut), by simp,
     by norm_num [AMD_DECISION_TIMEOUT_SECONDS]⟩

/-- C7: on an undecided session, a frame yielding an in-progress partial
utterance classifies the partial text alone with duration 0; the session
transitions to DECIDED — caching and returning the result tagged
`partial` — precisely when that classification is MACHINE with confidence
≥ 0.85, and otherwise the frame changes nothing and returns no decision. -/
theorem claim_C7 (s : Session) (t : String) (n : ℕ)
    (h : s.decision_made = false) :
    (((analyze_transcription t 0).result = .MACHINE ∧
        17/20 ≤ (analyze_transcription t 0).confidence) →
      process_audio s (.inProgress t n) =
        ({ s with
             decision_made := true,
             final_result := some (mkResult s.call_id
               (analyze_transcription t 0) true false) },
         some (mkResult s.call_id (analyze_transcription t 0) true false))) ∧
    (¬ ((analyze_transcription t 0).result = .MACHINE ∧
        17/20 ≤ (analyze_transcription t 0).confidence) →
      process_audio s (.inProgress t n) = (s, none)) := by
  constructor
  · intro hc
    have ht : t ≠ "" := by
      intro h0
      subst h0
      rw [analyze_empty_case "" 0 rfl] at hc
      exact absurd hc.1 (by decide)
    simp only [process_audio, h, Bool.false_eq_true, if_false]
    rw [if_neg ht, if_pos hc]
  · intro hc
    by_cases ht : t = ""
    · subst ht
      simp [process_audio, h]
    · simp only [process_audio, h, Bool.false_eq_true, if_false]
      rw [if_neg ht, if_neg hc]

/-- C7 (witness): a partial matching three keywords fast-exits a fresh
session with a `partial`-tagged result, while the partial `"buzon"`
(confidence 0.80 < 0.85) leaves the session untouched with no decision. -/
theorem claim_C7_witness :
    process_audio (initSession "c" 8000)
        (.inProgress "por favor deje su mensaje" 160) =
      ({ initSession "c" 8000 with
           decision_made := true,
           final_result := some (mkResult "c"
             (analyze_transcription "por favor deje su mensaje" 0) true false) },
       some (mkResult "c" (analyze_transcription "por favor deje su mensaje" 0)
         true false)) ∧
    process_audio (initSession "c" 8000) (.inProgress "buzon" 160) =
      (initSession "c" 8000, none) := by
  constructor
  · exact (claim_C7 (initSession "c" 8000) "por favor deje su mensaje" 160 rfl).1
      ⟨by rw [analyze_eval_pfdsm], by rw [analyze_eval_pfdsm]; norm_num⟩
  · exact (claim_C7 (initSession "c" 8000) "buzon" 160 rfl).2
      (fun hc => absurd hc.2 (by rw [analyze_eval_buzon]; norm_num))

/-- A session that has already reached the DECIDED state, with its cached
final result. -/
def decidedSession : Session :=
  { call_id := "c", sample_rate := 8000, accumulated_text := " hola",
    total_speech_duration := 1, decision_made := true,
    final_result := some (mkResult "c" (analyze_transcription "hola" 1)
      false true) }

/-- C8: on a session in the DECIDED state, every `process_audio` call (with
any frame) and every `force_decision` call returns the session unchanged
together with the cached `final_result`. -/
theorem claim_C8 (s : Session) (fr : FrameResult) (ft : String)
    (h : s.decision_made = true) :
    process_audio s fr = (s, s.final_result) ∧
    force_decision s ft = (s, s.final_result) :=
  ⟨process_audio_decided s fr h, force_decision_decided s ft h⟩

/-- C8 (witness): idempotence at a concrete decided session. -/
theorem claim_C8_witness :
    process_audio decidedSession (.finalText "x" 100) =
      (decidedSession, decidedSession.final_result) ∧
    force_decision decidedSession "y" = (decidedSession, decidedSession.final_result) :=
  claim_C8 decidedSession (.finalText "x" 100) "y" rfl

/-- C9: across any sequence of `process_audio` and `force_decision` calls,
`total_speech_duration` never decreases, and once `decision_made` is true
it stays true. -/
theorem claim_C9 (s : Session) (ops : List SessionOp) :
    s.total_speech_duration ≤ (applyOps s ops).total_speech_duration ∧
    (s.decision_made = true → (applyOps s ops).decision_made = true) :=
  ⟨applyOps_duration_mono ops s, applyOps_decision_mono ops s⟩

/-- C9 (witness): duration monotonicity over a forced decision on a fresh
session, and decision persistence over a further frame on a decided one. -/
theorem claim_C9_witness :
    (initSession "c" 8000).total_speech_duration ≤
      (applyOps (initSession "c" 8000) [SessionOp.force ""]).total_speech_duration ∧
    (applyOps decidedSession
      [SessionOp.frame (.finalText "x" 10)]).decision_made = true :=
  ⟨(claim_C9 (initSession "c" 8000) [SessionOp.force ""]).1,
   (claim_C9 decidedSession [SessionOp.frame (.finalText "x" 10)]).2 rfl⟩

/-- C10: a MACHINE classification with confidence ≥ 0.85 at duration 0
requires at least two matched keywords (one keyword yields 0.80 < 0.85),
so the partial fast-exit never fires on a single-keyword partial; in
particular a partial `"buzon"` frame never changes an undecided session,
and a session fed only `"buzon"` partials never reaches DECIDED. -/
theorem claim_C10 :
    (∀ t : String, (analyze_transcription t 0).result = .MACHINE →
      17/20 ≤ (analyze_transcription t 0).confidence →
      2 ≤ (analyze_transcription t 0).keywords.length) ∧
    (∀ (s : Session) (n : ℕ), s.decision_made = false →
      process_audio s (.inProgress "buzon" n) = (s, none)) ∧
    (∀ (cid : String) (rate : ℕ) (ns : List ℕ),
      (applyOps (initSession cid rate)
        (ns.map (fun n => SessionOp.frame (.inProgress "buzon" n)))).decision_made
        = false) := by
  have hb : ∀ (s : Session) (n : ℕ), s.decision_made = false →
      process_audio s (.inProgress "buzon" n) = (s, none) := by
    intro s n h
    simp only [process_audio, h, Bool.false_eq_true, if_false]
    rw [if_neg (by decide : ¬ ("buzon" = ""))]
    rw [if_neg (fun hc => absurd hc.2 (by rw [analyze_eval_buzon]; norm_num))]
  refine ⟨?_, hb, ?_⟩
  · intro t hm hc
    by_cases hne : normText t = ""
    · rw [analyze_empty_case t 0 hne] at hm
      exact absurd hm (by decide)
    by_cases hk : 1 ≤ (keywordsFound (normText t)).length
    · rw [analyze_keyword_case t 0 hne hk] at hc ⊢
      have hc2 : (17:ℚ)/20 ≤
          min (19/20) (7/10 + ((keywordsFound (normText t)).length : ℚ) * (1/10)) := hc
      show 2 ≤ (keywordsFound (normText t)).length
      rcases le_min_iff.mp hc2 with ⟨-, hc3⟩
      by_contra hlt
      have hle1 : (keywordsFound (normText t)).length ≤ 1 := by omega
      have hle1q : ((keywordsFound (normText t)).length : ℚ) ≤ 1 := by
        exact_mod_cast hle1
      linarith
    · have hr2 : ¬ (AMD_MIN_SPEECH_FOR_MACHINE < (0:ℚ) ∧
          8 < (pySplit (normText t)).length) := by
        intro hcc
        have := hcc.1
        norm_num [AMD_MIN_SPEECH_FOR_MACHINE] at this
      simp only [analyze_transcription, if_neg hne, if_neg hk, if_neg hr2] at hm
      split_ifs at hm
  · intro cid rate ns
    have hgen : ∀ (ms : List ℕ) (s : Session), s.decision_made = false →
        (applyOps s
          (ms.map (fun n => SessionOp.frame (.inProgress "buzon" n)))).decision_made
          = false := by
      intro ms
      induction ms with
      | nil => intro s hs; exact hs
      | cons m mss ih =>
          intro s hs
          have h1 : applyOp s (SessionOp.frame (.inProgress "buzon" m)) = s := by
            show (process_audio s (.inProgress "buzon" m)).1 = s
            rw [hb s m hs]
          rw [List.map_cons, applyOps, List.foldl_cons, h1]
          exact ih s hs
    exact hgen ns (initSession cid rate) rfl

/-- C10 (witness): `"por favor deje su mensaje"` fast-exits with 3 matched
keywords; the partial `"buzon"` leaves a fresh session unchanged; a run of
three `"buzon"` partials leaves the session undecided. -/
theorem claim_C10_witness :
    2 ≤ (analyze_transcription "por favor deje su mensaje" 0).keywords.length ∧
    process_audio (initSession "d" 8000) (.inProgress "buzon" 99) =
      (initSession "d" 8000, none) ∧
    (applyOps (initSession "e" 8000)
      ([1, 2, 3].map (fun n => SessionOp.frame (.inProgress "buzon" n)))).decision_made
      = false :=
  ⟨claim_C10.1 "por favor deje su mensaje" (by rw [analyze_eval_pfdsm])
      (by rw [analyze_eval_pfdsm]; norm_num),
   claim_C10.2.1 (initSession "d" 8000) 99 rfl,
   claim_C10.2.2 "e" 8000 [1, 2, 3]⟩

end AMD
